import Mathlib

/-!
Verification of the cryCompare scraper (`src/cryptoscrap/scraper.py`,
`src/app.py`) against its natural-language specification.

The pure core of the scraper is shallowly embedded here:
* `SeriesPoint` models one row of the candle dataframe (columns
  `time, open, high, low, close, volumefrom, volumeto`); prices and
  volumes are modelled as rationals, timestamps as natural numbers of
  seconds since the epoch.
* `trimLeadingZeros` embeds the "clean zeros" loop
  (scraper.py lines 161-165 and 224-228).
* `spliceScanIdx` / `spliceExisting` / `mergeExisting` embed the "merge
  with existing csv data" loop (scraper.py lines 169-175 and 232-238),
  including the label/position offset that the trim leaves on the
  dataframe's unreset integer index (`trimOffset`).
* `walkMinuteAux` / `walkHourAux` embed the backward pagination loops
  (scraper.py lines 210-222 and 153-159), with explicit fuel; the remote
  `histo_*` call is an argument `fetch : Nat → FetchResult`.
* `loadExisting` embeds the existing-csv loading step
  (scraper.py lines 139-143 and 196-200).
* `scrapStep` / `scrapRun` embed the orchestration loop of
  `Scraper.scrap` (scraper.py lines 84-99), and `get_active_coin_list`
  embeds lines 253-273.
* `check_for_updates` embeds scraper.py lines 285-286.
-/

/-- One row of the candle dataframe.  Columns in source order:
`time, open, high, low, close, volumefrom, volumeto` (CSV_HEADER,
scraper.py line 14).  `row[2]` is `high` and `row[3]` is `low`. -/
structure SeriesPoint where
  time : Nat
  open_ : ℚ
  high : ℚ
  low : ℚ
  close : ℚ
  volumefrom : ℚ
  volumeto : ℚ
deriving DecidableEq

/-- A row is "no-data padding" when `high == 0 and low == 0`
(the negation of the test `not row[2] == row[3] == 0`). -/
def isZeroRow (p : SeriesPoint) : Bool :=
  p.high == 0 && p.low == 0

/-- Embeds the "Format data: clean zeros" loop (scraper.py 161-165,
224-228):

    for idx, row in df.iterrows():
        if not row[2] == row[3] == 0:
            df = df.drop(df.index[:idx])
            break

The scan visits rows in order; at the first row that is not zero
padding it drops everything before that row (`df.drop(df.index[:idx])`)
and breaks.  `trimScan` returns `some` of the new dataframe when the
`break` fires and `none` when the loop runs off the end, in which case
`df` is left unchanged — in particular an all-zero dataframe is NOT
trimmed. -/
def trimScan : List SeriesPoint → Option (List SeriesPoint)
  | [] => none
  | p :: tl => if !(isZeroRow p) then some (p :: tl) else trimScan tl

/-- The "clean zeros" step: result of the loop above
(`df` after the loop, whether or not the `break` fired). -/
def trimLeadingZeros (df : List SeriesPoint) : List SeriesPoint :=
  (trimScan df).getD df

/-- Timestamp of the last row (`df_existing.iloc[-1, 0]`); 0 when the
list is empty (the source would raise there, and reaches this code only
with a nonempty loaded csv). -/
def lastTime (df : List SeriesPoint) : Nat :=
  match df.getLast? with
  | some p => p.time
  | none => 0

/-- Embeds the "Merge with existing csv data" loop (scraper.py
169-175, 232-238):

    for idx, row in df.iterrows():
        if str(row[0]) == str(df_existing.iloc[-1, 0]):
            df = df.drop(df.index[:idx + 1])
            df = pd.concat([df_existing, df], axis=0, ignore_index=True)
            break

The loop runs on the TRIMMED dataframe, whose integer index the trim's
`df.drop(df.index[:idx])` did NOT reset: after `t` leading rows were
dropped, the surviving rows carry the labels `t, t+1, ...` while their
positions restart at 0.  `iterrows` yields (label, row) pairs, so the
scan below carries the current label; it stops at the first row whose
timestamp equals the existing series' last timestamp and reports that
row's LABEL. -/
def spliceScanIdx (ex : List SeriesPoint) : Nat → List SeriesPoint → Option Nat
  | _, [] => none
  | label, p :: tl =>
    if p.time == lastTime ex then some label
    else spliceScanIdx ex (label + 1) tl

/-- The "merge with existing csv data" step on the trimmed dataframe
`df`, whose first row carries label `t`.  On a match the code drops
`df.index[:idx + 1]` — a POSITIONAL slice of the first `idx + 1`
surviving rows — and prepends the existing series; because `idx` is a
LABEL, this discards `t` rows beyond the matching row whenever the trim
dropped `t > 0` rows (`List.drop` caps at the list's length, exactly as
the pandas slice does).  When no row matches, the loop falls through
and `df` is left as the trimmed series alone: the existing data is NOT
concatenated. -/
def spliceExisting (ex df : List SeriesPoint) (t : Nat) : List SeriesPoint :=
  match spliceScanIdx ex t df with
  | some idx => ex ++ df.drop (idx + 1)
  | none => df

/-- Label of the row at which the trim loop breaks (the first row with
real data), counted on the dataframe's original `0, 1, ...` labels; 0
when the loop never breaks and nothing is dropped.  Since the trim's
`df.drop(df.index[:idx])` keeps the surviving labels, this is the label
carried by the trimmed dataframe's first row. -/
def trimOffsetAux : Nat → List SeriesPoint → Nat
  | _, [] => 0
  | i, p :: tl => if !(isZeroRow p) then i else trimOffsetAux (i + 1) tl

/-- The label offset the trim step leaves behind on the dataframe. -/
def trimOffset (df : List SeriesPoint) : Nat :=
  trimOffsetAux 0 df

/-- The whole trim-then-merge step applied to the freshly walked series
`walked`, with `exOpt` the optionally loaded existing series
(`df_existing`); the result is what `df.to_csv` persists
(scraper.py 161-177, 224-240).  The splice runs on the trimmed
dataframe together with the label offset the trim left on its index. -/
def mergeExisting (exOpt : Option (List SeriesPoint)) (walked : List SeriesPoint) :
    List SeriesPoint :=
  let df := trimLeadingZeros walked
  match exOpt with
  | none => df
  | some ex => spliceExisting ex df (trimOffset walked)

/-- Result of one remote `histo_minute` / `histo_hour` call: either a
page of rows, or a raised exception carrying its message string. -/
inductive FetchResult where
  | ok (pts : List SeriesPoint)
  | err (msg : String)
deriving DecidableEq

/-- Outcome of a pagination walk: the loop exits with the accumulated
dataframe, or an exception propagates out of the walk. -/
inductive WalkOut where
  | done (df : List SeriesPoint)
  | raise (msg : String)
deriving DecidableEq

/-- Embeds the regex test
`re.match(r"(.*)only available for the last 7 days(.*)", str(e))`
(CRYPTOCOMPARE_EXPECTED_ERROR, scraper.py line 22): the message
contains the phrase. -/
def isExpectedError (msg : String) : Bool :=
  decide ("only available for the last 7 days".toList <:+: msg.toList)

/-- Embeds the anchored regex test
`re.match(r"Cryptocompare API Error: There is no data for the symbol(.*)", str(e))`
(CRYPTOCOMPARE_NO_DATA_ERROR, scraper.py line 23): the message starts
with the fixed phrase. -/
def isNoDataError (msg : String) : Bool :=
  decide ("Cryptocompare API Error: There is no data for the symbol".toList <+: msg.toList)

/-- Timestamp of the first row of the accumulated dataframe
(`int(df.head(1)["time"])`); 0 when empty. -/
def headTime (df : List SeriesPoint) : Nat :=
  match df.head? with
  | some p => p.time
  | none => 0

/-- The `while` condition of both pagination loops
(scraper.py lines 153 and 210):
`df.loc[0, "high"] > 0 and df.loc[0, "time"] > ts_end`. -/
def contCond (tsEnd : Nat) (df : List SeriesPoint) : Bool :=
  match df.head? with
  | some p => decide (0 < p.high) && decide (tsEnd < p.time)
  | none => false

/-- Embeds the minute-granularity pagination loop (scraper.py 210-222):

    while df.loc[0, "high"] > 0 and df.loc[0, "time"] > ts_end:
        ts = int(df.head(1)["time"])
        try:
            data = histo_minute(..., to_ts=ts - 1)
        except ValueError as e:
            if re.match(CRYPTOCOMPARE_EXPECTED_ERROR, str(e)):
                break
            raise e
        df2 = pd.DataFrame(data, columns=CSV_HEADER)
        df = pd.concat([df2, df], axis=0, ignore_index=True)

`fetch` stands for `histo_minute` at the given `to_ts`; `fuel` bounds
the number of iterations and `none` marks fuel exhaustion. -/
def walkMinuteAux (fetch : Nat → FetchResult) (tsEnd : Nat) :
    Nat → List SeriesPoint → Option WalkOut
  | 0, _ => none
  | fuel + 1, df =>
    if contCond tsEnd df then
      match fetch (headTime df - 1) with
      | .ok pts => walkMinuteAux fetch tsEnd fuel (pts ++ df)
      | .err msg => if isExpectedError msg then some (.done df) else some (.raise msg)
    else some (.done df)

/-- Embeds the hour-granularity pagination loop (scraper.py 153-159):
identical to the minute loop except that the `histo_hour` call is not
wrapped in a `try`, so every fetch error propagates. -/
def walkHourAux (fetch : Nat → FetchResult) (tsEnd : Nat) :
    Nat → List SeriesPoint → Option WalkOut
  | 0, _ => none
  | fuel + 1, df =>
    if contCond tsEnd df then
      match fetch (headTime df - 1) with
      | .ok pts => walkHourAux fetch tsEnd fuel (pts ++ df)
      | .err msg => some (.raise msg)
    else some (.done df)

/-- Modelled from the spec: the pagination step as §4.2 of the spec
words it for minute granularity, with the cursor set to the earliest
timestamp minus ONE BUCKET (60 seconds for minute data) instead of the
source's `ts - 1`.  Used only to compare the source walker against the
spec's wording. -/
def walkMinuteSpecAux (fetch : Nat → FetchResult) (tsEnd : Nat) :
    Nat → List SeriesPoint → Option WalkOut
  | 0, _ => none
  | fuel + 1, df =>
    if contCond tsEnd df then
      match fetch (headTime df - 60) with
      | .ok pts => walkMinuteSpecAux fetch tsEnd fuel (pts ++ df)
      | .err msg => if isExpectedError msg then some (.done df) else some (.raise msg)
    else some (.done df)

/-- State of the persisted csv for one pair as the scraper finds it:
missing, present but not parseable by `pd.read_csv`, or parsed into a
row list. -/
inductive FileState where
  | missing
  | unparsable
  | parsed (df : List SeriesPoint)
deriving DecidableEq

/-- Embeds the existing-csv loading step (scraper.py 139-143, 196-200):

    df_existing = None
    ts_end = 0
    if update and os.path.isfile(csv_path):
        df_existing = pd.read_csv(csv_path)
        ts_end = str_to_ts(df_existing.iloc[-1, 0], DATE_FORMAT)

There is no exception handling around `pd.read_csv`: a parse failure
raises and propagates out of the per-coin scrape (`Except.error`).
`df_existing.iloc[-1, 0]` on an empty dataframe raises as well. -/
def loadExisting (update : Bool) (fs : FileState) :
    Except String (Option (List SeriesPoint) × Nat) :=
  if update then
    match fs with
    | .missing => .ok (none, 0)
    | .unparsable => .error "parse error"
    | .parsed df =>
      match df.getLast? with
      | some p => .ok (some df, p.time)
      | none => .error "index error"
  else .ok (none, 0)

/-- Observable state of one orchestration pass of `Scraper.scrap`
(scraper.py 84-101): the ignore-list file contents, the `success` list,
and the coins whose failures were logged with `self.log.error`. -/
structure ScrapState where
  ignoreFile : List String
  success : List String
  errorsLogged : List String
deriving DecidableEq

/-- Embeds one iteration of the `for c in coinlist` loop of
`Scraper.scrap` (scraper.py 84-99).  `outcome c` is `none` when
`scrap_coin_func[rate](c, ...)` returns normally and `some msg` when it
raises an exception with message `msg`:

    try:
        scrap_coin_func[rate](c, to_curr, update=update, verbose=verbose)
        success.append(c)
    except Exception as e:
        if re.match(CRYPTOCOMPARE_NO_DATA_ERROR, str(e)):
            with open(self.path_coin_ignore, "a") as f:
                f.write(c + "\n")
            self.log.warning(...)
        else:
            self.log.error("Failed to scrap coin %s: %s" % (c, str(e)))
-/
def scrapStep (outcome : String → Option String) (st : ScrapState) (c : String) :
    ScrapState :=
  match outcome c with
  | none => { st with success := st.success ++ [c] }
  | some msg =>
    if isNoDataError msg then { st with ignoreFile := st.ignoreFile ++ [c] }
    else { st with errorsLogged := st.errorsLogged ++ [c] }

/-- The whole `for c in coinlist` loop of `Scraper.scrap`. -/
def scrapRun (outcome : String → Option String) (st : ScrapState)
    (coins : List String) : ScrapState :=
  coins.foldl (scrapStep outcome) st

/-- The fixed renaming table COINMARKETCAP_TO_CRYPTOCOMPARE
(scraper.py 19-21). -/
def renameSymbol (s : String) : String :=
  if s = "MIOTA" then "IOT"
  else if s = "NANO" then "XRB"
  else if s = "ETHOS" then "BQX"
  else s

/-- The CryptoCompare-side names the renaming table can produce. -/
def renameTargets : List String := ["IOT", "XRB", "BQX"]

/-- Embeds `Scraper.get_active_coin_list` (scraper.py 253-273):
filter the CoinMarketCap symbol list by the ignore list
(`df = df[~df.symbol.isin(ignore_list[0].values)]`), THEN apply the
renaming table, then intersect with the CryptoCompare list
(`inter_list = [k for k in active_list if k in cc_list]`).  `ignore`
is the ignore-list file, `cmc` the CoinMarketCap symbol list sorted by
market cap, `cc` the CryptoCompare coin list. -/
def get_active_coin_list (ignore cmc cc : List String) : List String :=
  ((cmc.filter (fun s => !(decide (s ∈ ignore)))).map renameSymbol).filter
    (fun s => decide (s ∈ cc))

/-- Embeds `Scraper.check_for_updates` (scraper.py 285-286):

    def check_for_updates(self, rate, to_curr, max_timedelta):
        return True
-/
def check_for_updates (_rate _to_curr : String) (_max_timedelta : Int) : Bool :=
  true

/-- Strictly-increasing-timestamps predicate on a row list: the Series
invariant of the data model. -/
def StrictlyIncreasing (df : List SeriesPoint) : Prop :=
  df.Pairwise (fun p q => p.time < q.time)

instance (l : List SeriesPoint) : Decidable (StrictlyIncreasing l) :=
  inferInstanceAs (Decidable (l.Pairwise _))

/-- The whole minute-granularity walk of `scrap_coin_minute`
(scraper.py 203-222): the seeding fetch at `now` (line 204, outside the
`try`, so any error it raises propagates) followed by the pagination
loop. -/
def scrapWalkMinute (fetch : Nat → FetchResult) (tsEnd now fuel : Nat) :
    Option WalkOut :=
  match fetch now with
  | .ok pts => walkMinuteAux fetch tsEnd fuel pts
  | .err msg => some (.raise msg)

/-- The whole hour-granularity walk of `scrap_coin_hour`
(scraper.py 146-159). -/
def scrapWalkHour (fetch : Nat → FetchResult) (tsEnd now fuel : Nat) :
    Option WalkOut :=
  match fetch now with
  | .ok pts => walkHourAux fetch tsEnd fuel pts
  | .err msg => some (.raise msg)

/-! ### Helper lemmas -/

lemma lastTime_mem : ∀ (l : List SeriesPoint), l ≠ [] → ∃ q ∈ l, q.time = lastTime l
  | [p], _ => ⟨p, by simp, by simp [lastTime]⟩
  | p :: q :: tl, _ => by
    obtain ⟨r, hr, hrt⟩ := lastTime_mem (q :: tl) (by simp)
    refine ⟨r, by simp [List.mem_cons.1 hr, hr], ?_⟩
    rw [hrt]
    simp [lastTime, List.getLast?_cons_cons]

lemma time_le_lastTime : ∀ {l : List SeriesPoint}, StrictlyIncreasing l →
    ∀ {p : SeriesPoint}, p ∈ l → p.time ≤ lastTime l := by
  intro l
  induction l with
  | nil => intro _ p hp; cases hp
  | cons a tl ih =>
    intro hs p hp
    rw [StrictlyIncreasing, List.pairwise_cons] at hs
    obtain ⟨ha, htl⟩ := hs
    cases tl with
    | nil =>
      rw [List.mem_singleton] at hp
      subst hp
      simp [lastTime]
    | cons b tl' =>
      have hlast : lastTime (a :: b :: tl') = lastTime (b :: tl') := by
        simp [lastTime, List.getLast?_cons_cons]
      rcases List.mem_cons.1 hp with rfl | hp'
      · obtain ⟨r, hr, hrt⟩ := lastTime_mem (b :: tl') (by simp)
        rw [hlast, ← hrt]
        exact le_of_lt (ha r hr)
      · rw [hlast]
        exact ih htl hp'

lemma trimScan_of_any : ∀ {df : List SeriesPoint},
    (∃ p ∈ df, isZeroRow p = false) →
    trimScan df = some (df.dropWhile isZeroRow) := by
  intro df
  induction df with
  | nil => rintro ⟨p, hp, _⟩; cases hp
  | cons a tl ih =>
    rintro ⟨p, hp, hz⟩
    cases ha : isZeroRow a with
    | true =>
      have htl : ∃ p ∈ tl, isZeroRow p = false := by
        rcases List.mem_cons.1 hp with rfl | h
        · rw [ha] at hz; cases hz
        · exact ⟨p, h, hz⟩
      rw [trimScan]
      simp [ha, List.dropWhile_cons, ih htl]
    | false =>
      rw [trimScan]
      simp [ha, List.dropWhile_cons]

lemma trim_suffix : ∀ (df : List SeriesPoint), trimLeadingZeros df <:+ df := by
  intro df
  induction df with
  | nil => simp [trimLeadingZeros, trimScan]
  | cons a tl ih =>
    rw [trimLeadingZeros, trimScan]
    cases ha : isZeroRow a with
    | false => simp
    | true =>
      cases hts : trimScan tl with
      | none => simp
      | some r =>
        have hr : trimLeadingZeros tl = r := by rw [trimLeadingZeros, hts]; rfl
        have h2 := hr ▸ ih
        simp only [ha, Bool.not_true, if_neg, Bool.false_eq_true, not_false_iff,
          if_false, hts, Option.getD_some]
        exact h2.trans (List.suffix_cons a tl)

lemma head?_dropWhile_not {l : List SeriesPoint} {q : SeriesPoint}
    (h : (l.dropWhile isZeroRow).head? = some q) : isZeroRow q = false := by
  rw [← List.find?_not_eq_head?_dropWhile] at h
  simpa using List.find?_some h

lemma spliceScanIdx_eq_none (ex : List SeriesPoint) :
    ∀ (ds : List SeriesPoint) (t : Nat),
    (∀ p ∈ ds, p.time ≠ lastTime ex) → spliceScanIdx ex t ds = none := by
  intro ds
  induction ds with
  | nil => intro t _; rfl
  | cons a tl ih =>
    intro t h
    rw [spliceScanIdx]
    have ha : (a.time == lastTime ex) = false := by
      simpa using h a (by simp)
    simp only [ha, Bool.false_eq_true, if_false]
    exact ih (t + 1) fun p hp => h p (List.mem_cons_of_mem a hp)

lemma spliceScanIdx_sorted (ex : List SeriesPoint) :
    ∀ (ds : List SeriesPoint) (t : Nat),
    StrictlyIncreasing ds → lastTime ex ∈ ds.map SeriesPoint.time →
    ∃ k, spliceScanIdx ex t ds = some (t + k) ∧
      ds.drop (k + 1) = ds.filter (fun p => decide (lastTime ex < p.time)) := by
  intro ds
  induction ds with
  | nil => intro t _ h; simp at h
  | cons a tl ih =>
    intro t hs hmem
    rw [StrictlyIncreasing, List.pairwise_cons] at hs
    obtain ⟨ha, htl⟩ := hs
    by_cases hat : a.time = lastTime ex
    · refine ⟨0, ?_, ?_⟩
      · rw [spliceScanIdx]
        simp [hat]
      · have hfa : (decide (lastTime ex < a.time)) = false := by
          simp [← hat]
        have hftl : tl.filter (fun p => decide (lastTime ex < p.time)) = tl :=
          List.filter_eq_self.2 fun q hq => by simp [← hat, ha q hq]
        simp [List.filter_cons, hfa, hftl]
    · have hmem' : lastTime ex ∈ tl.map SeriesPoint.time := by
        rcases List.mem_map.1 hmem with ⟨q, hq, hqt⟩
        rcases List.mem_cons.1 hq with rfl | hq'
        · exact absurd hqt hat
        · exact List.mem_map.2 ⟨q, hq', hqt⟩
      obtain ⟨q, hq', hqt⟩ := List.mem_map.1 hmem'
      have halt : a.time < lastTime ex := hqt ▸ ha q hq'
      have hfa : (decide (lastTime ex < a.time)) = false := by
        simp; omega
      obtain ⟨k, hscan, hdrop⟩ := ih (t + 1) htl hmem'
      refine ⟨k + 1, ?_, ?_⟩
      · rw [spliceScanIdx]
        have hbeq : (a.time == lastTime ex) = false := by simpa using hat
        simp only [hbeq, Bool.false_eq_true, if_false]
        rw [hscan]
        congr 1
        omega
      · show (a :: tl).drop (k + 1 + 1) = _
        rw [List.drop_succ_cons, hdrop]
        simp [List.filter_cons, hfa]

lemma spliceScanIdx_some_decomp (ex : List SeriesPoint) :
    ∀ (ds : List SeriesPoint) (t idx : Nat), spliceScanIdx ex t ds = some idx →
    ∃ pre p suf, ds = pre ++ p :: suf ∧ p.time = lastTime ex ∧
      idx = t + pre.length := by
  intro ds
  induction ds with
  | nil => intro t idx h; cases h
  | cons a tl ih =>
    intro t idx h
    rw [spliceScanIdx] at h
    by_cases hat : a.time = lastTime ex
    · simp only [hat, beq_self_eq_true, if_true, Option.some.injEq] at h
      exact ⟨[], a, tl, by simp, hat, by simp [← h]⟩
    · have hbeq : (a.time == lastTime ex) = false := by simpa using hat
      simp only [hbeq, Bool.false_eq_true, if_false] at h
      obtain ⟨pre, p, suf, h1, h2, h3⟩ := ih (t + 1) idx h
      exact ⟨a :: pre, p, suf, by simp [h1], h2, by rw [List.length_cons]; omega⟩

lemma drop_append_cons (p : SeriesPoint) (suf : List SeriesPoint) (j : Nat) :
    ∀ (pre : List SeriesPoint),
    (pre ++ p :: suf).drop (pre.length + 1 + j) = suf.drop j := by
  intro pre
  induction pre with
  | nil =>
    have h : ([] : List SeriesPoint).length + 1 + j = j + 1 := by
      simp only [List.length_nil]
      omega
    rw [List.nil_append, h, List.drop_succ_cons]
  | cons a pre ih =>
    show ((a :: pre) ++ p :: suf).drop ((a :: pre).length + 1 + j) = suf.drop j
    simp only [List.cons_append, List.length_cons]
    have h : pre.length + 1 + 1 + j = (pre.length + 1 + j) + 1 := by omega
    rw [h, List.drop_succ_cons, ih]

lemma contCond_one_le {tsEnd : Nat} {df : List SeriesPoint}
    (h : contCond tsEnd df = true) : 1 ≤ headTime df := by
  cases df with
  | nil => cases h
  | cons p tl =>
    rw [contCond] at h
    simp only [List.head?_cons, Bool.and_eq_true, decide_eq_true_eq] at h
    show 1 ≤ p.time
    omega

lemma headTime_append {pts df : List SeriesPoint} (h : pts ≠ []) :
    headTime (pts ++ df) = headTime pts := by
  cases pts with
  | nil => exact absurd rfl h
  | cons q tl => rfl

/-! ### Claim theorems -/

/-- C1, counterexample: the trim does not reset the dataframe's integer
index, so the merge loop's `df.drop(df.index[:idx + 1])` mixes the
matching row's LABEL `idx` with a POSITIONAL slice.  With an existing
series ending at `T = 100` and walked rows `[padding@50, 100, 160]`,
the trim drops one row (surviving labels 1, 2), the match sits at label
1, position 0, and the drop removes BOTH surviving rows: the program
persists the existing series alone, losing the walked point at 160 even
though its timestamp is strictly after `T` — while the claim's
hypotheses (trimmed series strictly increasing, `T` occurring in it)
all hold. -/
theorem merge_match_counterexample :
    StrictlyIncreasing (trimLeadingZeros [⟨50, 0, 0, 0, 0, 0, 0⟩,
      ⟨100, 1, 1, 1, 1, 1, 1⟩, ⟨160, 2, 2, 2, 2, 2, 2⟩]) ∧
    lastTime [⟨100, 1, 1, 1, 1, 1, 1⟩] ∈
      (trimLeadingZeros [⟨50, 0, 0, 0, 0, 0, 0⟩, ⟨100, 1, 1, 1, 1, 1, 1⟩,
        ⟨160, 2, 2, 2, 2, 2, 2⟩]).map SeriesPoint.time ∧
    mergeExisting (some [⟨100, 1, 1, 1, 1, 1, 1⟩])
        [⟨50, 0, 0, 0, 0, 0, 0⟩, ⟨100, 1, 1, 1, 1, 1, 1⟩,
          ⟨160, 2, 2, 2, 2, 2, 2⟩] =
      [⟨100, 1, 1, 1, 1, 1, 1⟩] ∧
    (⟨160, 2, 2, 2, 2, 2, 2⟩ : SeriesPoint) ∈
      trimLeadingZeros [⟨50, 0, 0, 0, 0, 0, 0⟩, ⟨100, 1, 1, 1, 1, 1, 1⟩,
        ⟨160, 2, 2, 2, 2, 2, 2⟩] ∧
    lastTime [⟨100, 1, 1, 1, 1, 1, 1⟩] <
      (⟨160, 2, 2, 2, 2, 2, 2⟩ : SeriesPoint).time ∧
    (⟨160, 2, 2, 2, 2, 2, 2⟩ : SeriesPoint) ∉
      mergeExisting (some [⟨100, 1, 1, 1, 1, 1, 1⟩])
        [⟨50, 0, 0, 0, 0, 0, 0⟩, ⟨100, 1, 1, 1, 1, 1, 1⟩,
          ⟨160, 2, 2, 2, 2, 2, 2⟩] := by
  refine ⟨by decide, by decide, by decide, by decide, by decide, by decide⟩

/-- C1, amended: when the existing persisted series' last timestamp `T`
appears in the freshly walked, trimmed series (a Series, so with
strictly increasing timestamps), the merge returns the existing series
unchanged followed by the trimmed points strictly after `T` with the
FIRST `trimOffset walked` OF THEM additionally discarded — the
label/position mix-up drops one extra surviving row per trimmed row.
In particular, when the trim removed nothing (`trimOffset walked = 0`,
labels and positions agree) the result is exactly the existing series
followed by the points strictly after `T`, with nothing at or below `T`
appended and no point duplicated. -/
theorem merge_match_appends_only_later (ex walked : List SeriesPoint)
    (_hex : ex ≠ [])
    (hsorted : StrictlyIncreasing (trimLeadingZeros walked))
    (hmem : lastTime ex ∈ (trimLeadingZeros walked).map SeriesPoint.time) :
    mergeExisting (some ex) walked =
      ex ++ ((trimLeadingZeros walked).filter
        (fun p => decide (lastTime ex < p.time))).drop (trimOffset walked) ∧
    (trimOffset walked = 0 →
      mergeExisting (some ex) walked =
        ex ++ (trimLeadingZeros walked).filter
          (fun p => decide (lastTime ex < p.time))) := by
  obtain ⟨k, hscan, hdrop⟩ := spliceScanIdx_sorted ex (trimLeadingZeros walked)
    (trimOffset walked) hsorted hmem
  have hmain : mergeExisting (some ex) walked =
      ex ++ (trimLeadingZeros walked).drop (trimOffset walked + k + 1) := by
    show spliceExisting ex (trimLeadingZeros walked) (trimOffset walked) = _
    simp only [spliceExisting, hscan]
  constructor
  · rw [hmain, ← hdrop, List.drop_drop]
    congr 2
    omega
  · intro ht
    rw [hmain, ht, ← hdrop]
    simp

theorem merge_match_appends_only_later_witness :
    ([⟨100, 1, 1, 1, 1, 1, 1⟩] : List SeriesPoint) ≠ [] ∧
    StrictlyIncreasing (trimLeadingZeros [⟨50, 0, 0, 0, 0, 0, 0⟩,
      ⟨100, 1, 1, 1, 1, 1, 1⟩, ⟨160, 2, 2, 2, 2, 2, 2⟩,
      ⟨170, 3, 3, 3, 3, 3, 3⟩]) ∧
    lastTime [⟨100, 1, 1, 1, 1, 1, 1⟩] ∈
      (trimLeadingZeros [⟨50, 0, 0, 0, 0, 0, 0⟩, ⟨100, 1, 1, 1, 1, 1, 1⟩,
        ⟨160, 2, 2, 2, 2, 2, 2⟩,
        ⟨170, 3, 3, 3, 3, 3, 3⟩]).map SeriesPoint.time ∧
    mergeExisting (some [⟨100, 1, 1, 1, 1, 1, 1⟩])
        [⟨50, 0, 0, 0, 0, 0, 0⟩, ⟨100, 1, 1, 1, 1, 1, 1⟩,
          ⟨160, 2, 2, 2, 2, 2, 2⟩, ⟨170, 3, 3, 3, 3, 3, 3⟩] =
      [⟨100, 1, 1, 1, 1, 1, 1⟩] ++
        ((trimLeadingZeros [⟨50, 0, 0, 0, 0, 0, 0⟩, ⟨100, 1, 1, 1, 1, 1, 1⟩,
          ⟨160, 2, 2, 2, 2, 2, 2⟩, ⟨170, 3, 3, 3, 3, 3, 3⟩]).filter
          (fun p => decide (lastTime [⟨100, 1, 1, 1, 1, 1, 1⟩] < p.time))).drop
        (trimOffset [⟨50, 0, 0, 0, 0, 0, 0⟩, ⟨100, 1, 1, 1, 1, 1, 1⟩,
          ⟨160, 2, 2, 2, 2, 2, 2⟩, ⟨170, 3, 3, 3, 3, 3, 3⟩]) :=
  ⟨by decide, by decide, by decide,
    (merge_match_appends_only_later _ _ (by decide) (by decide) (by decide)).1⟩

/-- C2, counterexample: with an existing series ending at 100 and a
walked series containing no row at timestamp 100, the merge result is
the trimmed walked series alone — the existing series is NOT
concatenated in front, and its point at 100 is dropped from the
persisted result. -/
theorem merge_no_match_counterexample :
    mergeExisting (some [⟨100, 1, 1, 1, 1, 1, 1⟩]) [⟨200, 1, 1, 1, 1, 1, 1⟩] =
      [⟨200, 1, 1, 1, 1, 1, 1⟩] ∧
    mergeExisting (some [⟨100, 1, 1, 1, 1, 1, 1⟩]) [⟨200, 1, 1, 1, 1, 1, 1⟩] ≠
      [⟨100, 1, 1, 1, 1, 1, 1⟩] ++
        trimLeadingZeros [⟨200, 1, 1, 1, 1, 1, 1⟩] ∧
    (⟨100, 1, 1, 1, 1, 1, 1⟩ : SeriesPoint) ∉
      mergeExisting (some [⟨100, 1, 1, 1, 1, 1, 1⟩]) [⟨200, 1, 1, 1, 1, 1, 1⟩] := by
  refine ⟨by decide, by decide, by decide⟩

/-- C2, amended: when no timestamp of the trimmed walked series equals
the existing series' last timestamp, the merge loop falls through and
the result is the trimmed walked series alone; the previously persisted
points are dropped (the csv is overwritten with only the new data). -/
theorem merge_no_match_keeps_only_new (ex walked : List SeriesPoint)
    (h : ∀ p ∈ trimLeadingZeros walked, p.time ≠ lastTime ex) :
    mergeExisting (some ex) walked = trimLeadingZeros walked := by
  have hs := spliceScanIdx_eq_none ex (trimLeadingZeros walked)
    (trimOffset walked) h
  rw [mergeExisting]
  simp [spliceExisting, hs]

theorem merge_no_match_keeps_only_new_witness :
    (∀ p ∈ trimLeadingZeros [⟨200, 1, 1, 1, 1, 1, 1⟩],
      SeriesPoint.time p ≠ lastTime [⟨100, 1, 1, 1, 1, 1, 1⟩]) ∧
    mergeExisting (some [⟨100, 1, 1, 1, 1, 1, 1⟩]) [⟨200, 1, 1, 1, 1, 1, 1⟩] =
      trimLeadingZeros [⟨200, 1, 1, 1, 1, 1, 1⟩] :=
  ⟨by decide, merge_no_match_keeps_only_new _ _ (by decide)⟩

/-- C3, counterexample: a walked series consisting only of
`high == 0, low == 0` padding is left entirely in place by the trim
step (the loop never fires its `break`), so the padding points do
appear in the merged result, contradicting the claim's all-zero case. -/
theorem trim_all_zero_counterexample :
    isZeroRow ⟨5, 0, 0, 0, 0, 0, 0⟩ = true ∧
    mergeExisting none [⟨5, 0, 0, 0, 0, 0, 0⟩] = [⟨5, 0, 0, 0, 0, 0, 0⟩] ∧
    (⟨5, 0, 0, 0, 0, 0, 0⟩ : SeriesPoint) ∈
      mergeExisting none [⟨5, 0, 0, 0, 0, 0, 0⟩] := by
  refine ⟨by decide, by decide, by decide⟩

/-- C3, amended: as long as at least one walked point carries real data
(`high ≠ 0` or `low ≠ 0`), the trim step removes exactly the leading
run of zero-padding rows: the result is `dropWhile isZeroRow`, the
removed prefix is precisely `takeWhile isZeroRow`, the first point with
real data becomes the new head, and the head of the merged result is
never a padding row.  (When every point is padding, the series is left
unchanged — see the counterexample.) -/
theorem trim_removes_leading_zero_run (walked : List SeriesPoint)
    (h : ∃ p ∈ walked, isZeroRow p = false) :
    trimLeadingZeros walked = walked.dropWhile isZeroRow ∧
    walked.takeWhile isZeroRow ++ mergeExisting none walked = walked ∧
    (mergeExisting none walked).head? =
      walked.find? (fun p => !(isZeroRow p)) ∧
    ∀ q, (mergeExisting none walked).head? = some q → isZeroRow q = false := by
  have h1 : trimLeadingZeros walked = walked.dropWhile isZeroRow := by
    rw [trimLeadingZeros, trimScan_of_any h]
    rfl
  have h2 : mergeExisting none walked = walked.dropWhile isZeroRow := by
    rw [mergeExisting]
    exact h1
  refine ⟨h1, ?_, ?_, ?_⟩
  · rw [h2, List.takeWhile_append_dropWhile]
  · rw [h2, ← List.find?_not_eq_head?_dropWhile]
  · intro q hq
    rw [h2] at hq
    exact head?_dropWhile_not hq

theorem trim_removes_leading_zero_run_witness :
    (∃ p ∈ ([⟨1, 0, 0, 0, 0, 0, 0⟩, ⟨2, 0, 0, 0, 0, 0, 0⟩,
      ⟨3, 4, 5, 3, 4, 9, 9⟩] : List SeriesPoint), isZeroRow p = false) ∧
    trimLeadingZeros
        [⟨1, 0, 0, 0, 0, 0, 0⟩, ⟨2, 0, 0, 0, 0, 0, 0⟩, ⟨3, 4, 5, 3, 4, 9, 9⟩] =
      List.dropWhile isZeroRow
        [⟨1, 0, 0, 0, 0, 0, 0⟩, ⟨2, 0, 0, 0, 0, 0, 0⟩, ⟨3, 4, 5, 3, 4, 9, 9⟩] ∧
    List.takeWhile isZeroRow
        [⟨1, 0, 0, 0, 0, 0, 0⟩, ⟨2, 0, 0, 0, 0, 0, 0⟩, ⟨3, 4, 5, 3, 4, 9, 9⟩] ++
      mergeExisting none
        [⟨1, 0, 0, 0, 0, 0, 0⟩, ⟨2, 0, 0, 0, 0, 0, 0⟩, ⟨3, 4, 5, 3, 4, 9, 9⟩] =
      [⟨1, 0, 0, 0, 0, 0, 0⟩, ⟨2, 0, 0, 0, 0, 0, 0⟩, ⟨3, 4, 5, 3, 4, 9, 9⟩] :=
  ⟨by decide,
    (trim_removes_leading_zero_run _ (by decide)).1,
    (trim_removes_leading_zero_run _ (by decide)).2.1⟩

/-- C4, counterexample: the merge code contains no invariant check at
all; fed an out-of-order dataframe it returns (and the caller persists)
a series whose timestamps are not strictly increasing, instead of
raising a fatal internal-consistency error. -/
theorem merge_invariant_not_checked_counterexample :
    mergeExisting none [⟨200, 1, 1, 1, 1, 1, 1⟩, ⟨100, 1, 1, 1, 1, 1, 1⟩] =
      [⟨200, 1, 1, 1, 1, 1, 1⟩, ⟨100, 1, 1, 1, 1, 1, 1⟩] ∧
    ¬ StrictlyIncreasing
      (mergeExisting none [⟨200, 1, 1, 1, 1, 1, 1⟩, ⟨100, 1, 1, 1, 1, 1, 1⟩]) := by
  refine ⟨by decide, by decide⟩

/-- C4, amended: whenever the loaded existing series and the freshly
walked series themselves have strictly increasing timestamps, the
merged series does too (and so has no duplicate timestamps); but the
code performs NO check before returning — a violating series coming
from elsewhere is persisted silently (see the counterexample). -/
theorem merge_preserves_invariant (exOpt : Option (List SeriesPoint))
    (walked : List SeriesPoint)
    (hex : ∀ ex, exOpt = some ex → StrictlyIncreasing ex)
    (hw : StrictlyIncreasing walked) :
    StrictlyIncreasing (mergeExisting exOpt walked) ∧
    (mergeExisting exOpt walked).Pairwise (fun p q => p.time ≠ q.time) := by
  have htrim : List.Pairwise (fun p q : SeriesPoint => p.time < q.time)
      (trimLeadingZeros walked) :=
    List.Pairwise.sublist (trim_suffix walked).sublist hw
  have main : StrictlyIncreasing (mergeExisting exOpt walked) := by
    cases exOpt with
    | none => exact htrim
    | some ex =>
      have hexs := hex ex rfl
      show StrictlyIncreasing
        (spliceExisting ex (trimLeadingZeros walked) (trimOffset walked))
      cases hscan : spliceScanIdx ex (trimOffset walked)
          (trimLeadingZeros walked) with
      | none => simp only [spliceExisting, hscan]; exact htrim
      | some idx =>
        simp only [spliceExisting, hscan]
        obtain ⟨pre, p, suf, hds, hpt, hidx⟩ :=
          spliceScanIdx_some_decomp ex _ _ _ hscan
        have hdropeq : (trimLeadingZeros walked).drop (idx + 1) =
            suf.drop (trimOffset walked) := by
          rw [hds]
          have h1 : idx + 1 = pre.length + 1 + trimOffset walked := by omega
          rw [h1, drop_append_cons]
        rw [hdropeq]
        have hsuffix : (p :: suf) <:+ trimLeadingZeros walked := ⟨pre, hds.symm⟩
        have hps : List.Pairwise (fun p q : SeriesPoint => p.time < q.time)
            (p :: suf) :=
          List.Pairwise.sublist hsuffix.sublist htrim
        rw [List.pairwise_cons] at hps
        obtain ⟨hpall, hsufp⟩ := hps
        rw [StrictlyIncreasing, List.pairwise_append]
        refine ⟨hexs, List.Pairwise.sublist (List.drop_sublist _ _) hsufp, ?_⟩
        intro a ha b hb
        have hbsuf : b ∈ suf := List.drop_subset _ _ hb
        have h1 : a.time ≤ lastTime ex := time_le_lastTime hexs ha
        have h2 : p.time < b.time := hpall b hbsuf
        omega
  exact ⟨main, List.Pairwise.imp (fun h => Nat.ne_of_lt h) main⟩

theorem merge_preserves_invariant_witness :
    StrictlyIncreasing
      (mergeExisting (some [⟨100, 1, 1, 1, 1, 1, 1⟩])
        [⟨100, 1, 1, 1, 1, 1, 1⟩, ⟨160, 2, 2, 2, 2, 2, 2⟩]) ∧
    (mergeExisting (some [⟨100, 1, 1, 1, 1, 1, 1⟩])
        [⟨100, 1, 1, 1, 1, 1, 1⟩, ⟨160, 2, 2, 2, 2, 2, 2⟩]).Pairwise
      (fun p q => p.time ≠ q.time) :=
  merge_preserves_invariant (some [⟨100, 1, 1, 1, 1, 1, 1⟩])
    [⟨100, 1, 1, 1, 1, 1, 1⟩, ⟨160, 2, 2, 2, 2, 2, 2⟩]
    (by intro ex h; cases h; decide) (by decide)

/-- C5: over any remote history served by `fetch` that returns
nonempty pages of points no later than the requested cursor, both
pagination walks finish within a fuel bound equal to the head timestamp
(each iteration strictly decreases the cursor, and hence the head
timestamp, until the earliest accumulated point has `high == 0` or its
timestamp is no longer strictly greater than `tsEnd`); the whole seeded
walk finishes with any fuel exceeding the starting cursor `now`.  The
zero-iteration edge case — the first fetched page already fails the
`while` condition — is covered, as is every early exit through an
error. -/
theorem walk_terminates_bounded (fetch : Nat → FetchResult) (tsEnd : Nat)
    (hfetch : ∀ c pts, fetch c = FetchResult.ok pts →
      pts ≠ [] ∧ ∀ q ∈ pts, q.time ≤ c) :
    (∀ fuel df, df ≠ [] → headTime df < fuel →
      (walkMinuteAux fetch tsEnd fuel df).isSome = true ∧
      (walkHourAux fetch tsEnd fuel df).isSome = true) ∧
    (∀ now fuel, now < fuel →
      (scrapWalkMinute fetch tsEnd now fuel).isSome = true ∧
      (scrapWalkHour fetch tsEnd now fuel).isSome = true) := by
  have aux : ∀ fuel df, df ≠ [] → headTime df < fuel →
      (walkMinuteAux fetch tsEnd fuel df).isSome = true ∧
      (walkHourAux fetch tsEnd fuel df).isSome = true := by
    intro fuel
    induction fuel with
    | zero => intro df _ h; omega
    | succ fuel ih =>
      intro df hdf hlt
      cases hc : contCond tsEnd df with
      | false =>
        constructor
        · simp [walkMinuteAux, hc]
        · simp [walkHourAux, hc]
      | true =>
        have h1 : 1 ≤ headTime df := contCond_one_le hc
        cases hf : fetch (headTime df - 1) with
        | ok pts =>
          obtain ⟨hne, hle⟩ := hfetch _ _ hf
          have hle' : headTime (pts ++ df) ≤ headTime df - 1 := by
            rw [headTime_append hne]
            cases pts with
            | nil => exact absurd rfl hne
            | cons q t => exact hle q (by simp)
          have hne' : pts ++ df ≠ [] := by
            intro hcontra
            rw [List.append_eq_nil] at hcontra
            exact hne hcontra.1
          have hrec := ih (pts ++ df) hne' (by omega)
          constructor
          · simp [walkMinuteAux, hc, hf, hrec.1]
          · simp [walkHourAux, hc, hf, hrec.2]
        | err msg =>
          constructor
          · by_cases he : isExpectedError msg <;>
              simp [walkMinuteAux, hc, hf, he]
          · simp [walkHourAux, hc, hf]
  refine ⟨aux, ?_⟩
  intro now fuel hlt
  cases hf : fetch now with
  | ok pts =>
    obtain ⟨hne, hle⟩ := hfetch _ _ hf
    have hh : headTime pts < fuel := by
      cases pts with
      | nil => exact absurd rfl hne
      | cons q t =>
        have := hle q (by simp)
        show q.time < fuel
        omega
    have hrec := aux fuel pts hne hh
    constructor
    · simp [scrapWalkMinute, hf, hrec.1]
    · simp [scrapWalkHour, hf, hrec.2]
  | err msg =>
    constructor
    · simp [scrapWalkMinute, hf]
    · simp [scrapWalkHour, hf]

theorem walk_terminates_bounded_witness :
    (scrapWalkMinute (fun _ => FetchResult.ok [⟨0, 0, 0, 0, 0, 0, 0⟩]) 0 5 6).isSome
      = true ∧
    (scrapWalkHour (fun _ => FetchResult.ok [⟨0, 0, 0, 0, 0, 0, 0⟩]) 0 5 6).isSome
      = true :=
  (walk_terminates_bounded (fun _ => FetchResult.ok [⟨0, 0, 0, 0, 0, 0, 0⟩]) 0
    (by
      intro c pts h
      injection h with h'
      subst h'
      refine ⟨by simp, ?_⟩
      intro q hq
      rw [List.mem_singleton] at hq
      subst hq
      exact Nat.zero_le c)).2 5 6 (by omega)

/-- C6, counterexample: the universe resolution filters by the ignore
list BEFORE applying the renaming table, so an ignored CryptoCompare
name produced by the renaming table (here "IOT", listed as "MIOTA" on
CoinMarketCap) re-enters the resolved universe even though it is on the
ignore list. -/
theorem ignore_list_renamed_symbol_counterexample :
    ("IOT" : String) ∈ (["IOT"] : List String) ∧
    "IOT" ∈ get_active_coin_list ["IOT"] ["MIOTA"] ["IOT"] := by
  refine ⟨by decide, by decide⟩

/-- C6, amended: when the per-coin scrape raises a `NoDataForSymbol`
message, the orchestrator appends the coin to the ignore-list file,
leaves the success and error logs untouched (a non-error outcome), and
continues with the remaining coins; the next universe resolution
excludes every ignored symbol EXCEPT the CryptoCompare names produced
by the renaming table ("IOT", "XRB", "BQX"), which escape the filter
because the ignore check runs on CoinMarketCap names before renaming
(see the counterexample). -/
theorem no_data_appended_to_ignore_list (outcome : String → Option String)
    (st : ScrapState) (c : String) (rest : List String) (msg : String)
    (ho : outcome c = some msg) (hnd : isNoDataError msg = true) :
    scrapStep outcome st c = { st with ignoreFile := st.ignoreFile ++ [c] } ∧
    scrapRun outcome st (c :: rest) =
      scrapRun outcome { st with ignoreFile := st.ignoreFile ++ [c] } rest ∧
    ∀ ignore cmc cc s, s ∈ ignore → s ∉ renameTargets →
      s ∉ get_active_coin_list ignore cmc cc := by
  have h1 : scrapStep outcome st c =
      { st with ignoreFile := st.ignoreFile ++ [c] } := by
    simp [scrapStep, ho, hnd]
  refine ⟨h1, ?_, ?_⟩
  · simp [scrapRun, h1]
  · intro ignore cmc cc s hs hnt hmem
    simp only [get_active_coin_list] at hmem
    rw [List.mem_filter] at hmem
    obtain ⟨hm1, _⟩ := hmem
    rw [List.mem_map] at hm1
    obtain ⟨t, ht, hrt⟩ := hm1
    rw [List.mem_filter] at ht
    obtain ⟨_, hti⟩ := ht
    have htni : t ∉ ignore := by simpa using hti
    simp only [renameSymbol] at hrt
    by_cases e1 : t = "MIOTA"
    · rw [if_pos e1] at hrt
      exact hnt (hrt ▸ by decide)
    · rw [if_neg e1] at hrt
      by_cases e2 : t = "NANO"
      · rw [if_pos e2] at hrt
        exact hnt (hrt ▸ by decide)
      · rw [if_neg e2] at hrt
        by_cases e3 : t = "ETHOS"
        · rw [if_pos e3] at hrt
          exact hnt (hrt ▸ by decide)
        · rw [if_neg e3] at hrt
          subst hrt
          exact htni hs

theorem no_data_appended_to_ignore_list_witness :
    scrapStep (fun _ =>
        some "Cryptocompare API Error: There is no data for the symbol XYZ")
      ⟨[], [], []⟩ "XYZ" = ⟨["XYZ"], [], []⟩ ∧
    scrapRun (fun _ =>
        some "Cryptocompare API Error: There is no data for the symbol XYZ")
      ⟨[], [], []⟩ ["XYZ"] = ⟨["XYZ"], [], []⟩ := by
  have h := no_data_appended_to_ignore_list
    (fun _ => some "Cryptocompare API Error: There is no data for the symbol XYZ")
    ⟨[], [], []⟩ "XYZ" []
    "Cryptocompare API Error: There is no data for the symbol XYZ"
    rfl (by decide)
  exact ⟨h.1, by rw [h.2.1]; rfl⟩

/-- C7, counterexample: the source walker requests the next page ending
at the head timestamp minus ONE SECOND (`to_ts = ts - 1`), not minus
one bucket width; against a remote that answers at cursor 119 (= 120-1)
but errors at cursor 60 (= 120-60), the source walker and the
spec-modelled one-bucket walker disagree. -/
theorem walk_cursor_counterexample :
    walkMinuteAux
        (fun c => if c = 119 then FetchResult.ok [⟨60, 0, 0, 0, 0, 0, 0⟩]
          else FetchResult.err "boom")
        0 5 [⟨120, 1, 1, 1, 1, 1, 1⟩] =
      some (WalkOut.done [⟨60, 0, 0, 0, 0, 0, 0⟩, ⟨120, 1, 1, 1, 1, 1, 1⟩]) ∧
    walkMinuteSpecAux
        (fun c => if c = 119 then FetchResult.ok [⟨60, 0, 0, 0, 0, 0, 0⟩]
          else FetchResult.err "boom")
        0 5 [⟨120, 1, 1, 1, 1, 1, 1⟩] =
      some (WalkOut.raise "boom") ∧
    some (WalkOut.done [⟨60, 0, 0, 0, 0, 0, 0⟩, ⟨120, 1, 1, 1, 1, 1, 1⟩]) ≠
      some (WalkOut.raise "boom") := by
  refine ⟨by decide, by decide, by decide⟩

/-- C7, amended: in every iteration of either walk, the next page
request ends at the accumulated series' earliest timestamp minus one
SECOND (`to_ts = ts - 1`), for minute and hour granularity alike — not
minus one bucket width. -/
theorem walk_next_request_one_second_earlier (fetch : Nat → FetchResult)
    (tsEnd fuel : Nat) (p : SeriesPoint) (rest : List SeriesPoint)
    (hc : contCond tsEnd (p :: rest) = true) :
    (walkMinuteAux fetch tsEnd (fuel + 1) (p :: rest) =
      match fetch (p.time - 1) with
      | .ok pts => walkMinuteAux fetch tsEnd fuel (pts ++ (p :: rest))
      | .err msg =>
        if isExpectedError msg then some (.done (p :: rest))
        else some (.raise msg)) ∧
    (walkHourAux fetch tsEnd (fuel + 1) (p :: rest) =
      match fetch (p.time - 1) with
      | .ok pts => walkHourAux fetch tsEnd fuel (pts ++ (p :: rest))
      | .err msg => some (.raise msg)) := by
  constructor
  · rw [walkMinuteAux, if_pos hc]; rfl
  · rw [walkHourAux, if_pos hc]; rfl

theorem walk_next_request_one_second_earlier_witness :
    contCond 0 [(⟨120, 1, 1, 1, 1, 1, 1⟩ : SeriesPoint)] = true ∧
    walkMinuteAux (fun _ => FetchResult.err "boom") 0 3
        [⟨120, 1, 1, 1, 1, 1, 1⟩] =
      some (WalkOut.raise "boom") ∧
    walkHourAux (fun _ => FetchResult.err "boom") 0 3
        [⟨120, 1, 1, 1, 1, 1, 1⟩] =
      some (WalkOut.raise "boom") := by
  have h := walk_next_request_one_second_earlier
    (fun _ => FetchResult.err "boom") 0 2 ⟨120, 1, 1, 1, 1, 1, 1⟩ []
    (by decide)
  refine ⟨by decide, ?_, ?_⟩
  · exact h.1.trans (by decide)
  · exact h.2.trans (by decide)

/-- C8, counterexample: a persisted file that exists but fails to parse
makes `pd.read_csv` raise; the load step returns that error (aborting
the pair) instead of treating the series as absent with a full re-walk
from timestamp 0. -/
theorem load_parse_failure_counterexample :
    loadExisting true FileState.unparsable = Except.error "parse error" ∧
    loadExisting true FileState.unparsable ≠
      Except.ok (none, 0) := by
  refine ⟨rfl, fun h => by cases h⟩

/-- C8, amended: only a missing file (or `update=False`) is treated as
absent with `ts_end = 0` (full re-walk); a file that exists but fails
to parse raises out of the per-pair scrape, and the orchestrator then
records that coin in the error log (the pair is aborted for this pass),
since a parse-error message does not match the no-data pattern. -/
theorem load_parse_failure_aborts_pair (outcome : String → Option String)
    (st : ScrapState) (c : String)
    (ho : outcome c = some "parse error") :
    loadExisting true FileState.missing = Except.ok (none, 0) ∧
    (∀ fs, loadExisting false fs = Except.ok (none, 0)) ∧
    loadExisting true FileState.unparsable = Except.error "parse error" ∧
    scrapStep outcome st c =
      { st with errorsLogged := st.errorsLogged ++ [c] } := by
  refine ⟨rfl, fun fs => rfl, rfl, ?_⟩
  simp [scrapStep, ho, isNoDataError]

theorem load_parse_failure_aborts_pair_witness :
    loadExisting true FileState.missing = Except.ok (none, 0) ∧
    scrapStep (fun _ => some "parse error") ⟨[], [], []⟩ "ETH" =
      ⟨[], [], ["ETH"]⟩ :=
  ⟨(load_parse_failure_aborts_pair (fun _ => some "parse error")
      ⟨[], [], []⟩ "ETH" rfl).1,
    (load_parse_failure_aborts_pair (fun _ => some "parse error")
      ⟨[], [], []⟩ "ETH" rfl).2.2.2⟩

/-- C9: in the minute-granularity walk, when the fetch at the current
cursor raises an error whose message matches the "only available for
the last 7 days" pattern, the loop breaks and the walk returns
everything accumulated so far; any other error message is re-raised,
aborting the pair's scrape. -/
theorem minute_walk_expected_error_stops (fetch : Nat → FetchResult)
    (tsEnd fuel : Nat) (df : List SeriesPoint) (msg : String)
    (hc : contCond tsEnd df = true)
    (hf : fetch (headTime df - 1) = FetchResult.err msg) :
    walkMinuteAux fetch tsEnd (fuel + 1) df =
      (if isExpectedError msg then some (WalkOut.done df)
       else some (WalkOut.raise msg)) := by
  rw [walkMinuteAux, if_pos hc, hf]

theorem minute_walk_expected_error_stops_witness :
    walkMinuteAux
        (fun _ => FetchResult.err
          "histo minute data is only available for the last 7 days")
        0 3 [⟨120, 1, 1, 1, 1, 1, 1⟩] =
      some (WalkOut.done [⟨120, 1, 1, 1, 1, 1, 1⟩]) ∧
    walkMinuteAux (fun _ => FetchResult.err "connection reset") 0 3
        [⟨120, 1, 1, 1, 1, 1, 1⟩] =
      some (WalkOut.raise "connection reset") := by
  constructor
  · rw [minute_walk_expected_error_stops
      (fun _ => FetchResult.err
        "histo minute data is only available for the last 7 days")
      0 2 [⟨120, 1, 1, 1, 1, 1, 1⟩]
      "histo minute data is only available for the last 7 days"
      (by decide) rfl]
    decide
  · rw [minute_walk_expected_error_stops
      (fun _ => FetchResult.err "connection reset") 0 2
      [⟨120, 1, 1, 1, 1, 1, 1⟩] "connection reset" (by decide) rfl]
    decide

/-- C10: `Scraper.check_for_updates` returns `True` for every
combination of `rate`, `to_curr` and `max_timedelta`, so a scrape pass
gated on it (as in app.py lines 37-44) is never skipped for freshness
reasons. -/
theorem check_for_updates_always_true (rate to_curr : String)
    (max_timedelta : Int) :
    check_for_updates rate to_curr max_timedelta = true := rfl
